import Mathlib

/-!
Formal model of `mediafire.py` (mediafire_bulk_downloader).

The Python source is shallowly embedded: pure helpers become Lean
functions; the stateful transfer task `download_file` becomes a pure
function from the task's inputs and an environment record (everything
the outside world answers: local file presence, hashes, HTTP responses,
chunk stream, cancellation observations) to a result record carrying
the terminal state, the ordered progress updates, the ordered
acquire/release/filesystem/network actions, and the final on-disk state
of the target file.  Python integers are unbounded, so byte counts are
`Nat`.  Python `str.isalnum` consults Unicode tables provided by the
runtime environment, so it is a parameter `isalnum : Char → Bool` of
every definition that classifies characters; on ASCII inputs
`Char.isAlphanum` agrees with it and is used for concrete evaluations.
-/

namespace Mediafire

/-! ### Name normalization (mediafire.py lines 31-32, 137-150) -/

/-- Source line 31: the allow-list of non-alphanumeric characters kept as-is. -/
def NON_ALPHANUM_FILE_OR_FOLDER_NAME_CHARACTERS : String := "-_. "

/-- Source line 32: the replacement character. -/
def NON_ALPHANUM_FILE_OR_FOLDER_NAME_CHARACTER_REPLACEMENT : Char := '-'

/-- The keep-condition of source lines 143-145: the character is alphanumeric
or belongs to the allow-list. -/
def keepChar (isalnum : Char → Bool) (char : Char) : Bool :=
  isalnum char || NON_ALPHANUM_FILE_OR_FOLDER_NAME_CHARACTERS.data.contains char

/-- The per-character step of source lines 140-147. -/
def normalizeChar (isalnum : Char → Bool) (char : Char) : Char :=
  if keepChar isalnum char then char
  else NON_ALPHANUM_FILE_OR_FOLDER_NAME_CHARACTER_REPLACEMENT

/-- Source lines 137-150: `normalize_file_or_folder_name` maps the
per-character step over the string. -/
def normalize_file_or_folder_name (isalnum : Char → Bool) (filename : String) : String :=
  String.mk (filename.data.map (normalizeChar isalnum))

/-- A string is in normalized form when every character already satisfies
the keep-condition. -/
def isNormalizedForm (isalnum : Char → Bool) (s : String) : Bool :=
  s.data.all (keepChar isalnum)

theorem keepChar_normalizeChar (isalnum : Char → Bool) (c : Char) :
    keepChar isalnum (normalizeChar isalnum c) = true := by
  unfold normalizeChar
  by_cases h : keepChar isalnum c = true
  · simp [h]
  · simp [h]
    unfold keepChar NON_ALPHANUM_FILE_OR_FOLDER_NAME_CHARACTER_REPLACEMENT
    simp [NON_ALPHANUM_FILE_OR_FOLDER_NAME_CHARACTERS]

theorem normalizeChar_of_keep (isalnum : Char → Bool) (c : Char)
    (h : keepChar isalnum c = true) : normalizeChar isalnum c = c := by
  unfold normalizeChar
  simp [h]

theorem normalizeChar_ne_of_not_keep (isalnum : Char → Bool) (c : Char)
    (h : keepChar isalnum c = false) : normalizeChar isalnum c ≠ c := by
  intro hc
  have hk := keepChar_normalizeChar isalnum c
  rw [hc] at hk
  rw [h] at hk
  exact Bool.false_ne_true hk

theorem map_eq_self_forall {α : Type} (f : α → α) :
    ∀ (l : List α), l.map f = l → ∀ x ∈ l, f x = x := by
  intro l
  induction l with
  | nil => intro _ x hx; cases hx
  | cons a t ih =>
      intro h x hx
      simp only [List.map_cons, List.cons.injEq] at h
      cases hx with
      | head => exact h.1
      | tail _ ht => exact ih h.2 x ht

theorem normalize_idem_aux (isalnum : Char → Bool) (l : List Char) :
    (l.map (normalizeChar isalnum)).map (normalizeChar isalnum)
      = l.map (normalizeChar isalnum) := by
  induction l with
  | nil => rfl
  | cons a t ih =>
      simp only [List.map_cons, List.cons.injEq]
      exact ⟨normalizeChar_of_keep isalnum _ (keepChar_normalizeChar isalnum a), ih⟩

/-! ### Data model of one transfer task (mediafire.py lines 394-520) -/

/-- The fields of the `file` dict consumed by `download_file`
(source lines 403-408): raw remote name, declared size, expected hash,
and the indirect download reference. -/
structure FileMeta where
  filename : String
  size : Nat
  hash : String
  normal_download : String
  deriving DecidableEq, Repr

/-- Everything the outside world answers during one `download_file` run.
`cancelFrom` encodes the one-shot cancellation token: observation 0 is the
check before the request (source line 417), observation `i + 1` is the check
after reading chunk `i` (source line 488); the token is seen set at every
observation at or after `cancelFrom`.  `status` is the status of whichever
response reaches the check of source line 472.  `chunks` lists the sizes of
the successive non-empty chunks the response body yields; `readError`
indicates the loop iteration at which `response.read` raises, if any. -/
structure Env where
  existsLocal : Bool
  localHash : String
  cancelFrom : Option Nat
  gzip : Bool
  hasDownloadButton : Bool
  href : Option String
  status : Nat
  chunks : List Nat
  readError : Option Nat
  deriving DecidableEq, Repr

/-- Whether the one-shot token is observed set at observation point `k`. -/
def cancelSeen (cancelFrom : Option Nat) (k : Nat) : Bool :=
  match cancelFrom with
  | none => false
  | some m => decide (m ≤ k)

/-- Terminal states of a transfer task (spec section 4.3). -/
inductive Terminal where
  | Skipped
  | Cancelled
  | Failed
  | Completed
  deriving DecidableEq, Repr

/-- One call of `ProgressTracker.update` (source line 57): the byte delta and
the three flags. -/
structure Update where
  bytes : Nat
  completed : Bool
  failed : Bool
  skipped : Bool
  deriving DecidableEq, Repr

/-- Observable actions of a task, in program order: semaphore operations,
the local existence check and hash computation, file removal, outbound HTTP
requests, and chunk reads/writes. -/
inductive Action where
  | acquire
  | release
  | checkExists
  | hashFile
  | removeFile
  | request
  | readChunk
  | writeChunk
  deriving DecidableEq, Repr

/-- Result of the post-verification part of a task. -/
structure StreamOut where
  terminal : Terminal
  updates : List Update
  trace : List Action
  fileExistsAfter : Bool
  deriving DecidableEq, Repr

/-- Result of one full `download_file` run. -/
structure TaskResult where
  terminal : Terminal
  updates : List Update
  trace : List Action
  fileExistsAfter : Bool
  targetName : String
  deriving DecidableEq, Repr

/-- The streaming loop of source lines 485-502, plus the surrounding
completion handling (lines 504-507), the exception handler (lines 511-517)
for a read that raises, and the `finally` release of lines 518-520.  Each
iteration reads a chunk, then checks the cancellation token, then tests for
end of stream, then writes and reports the chunk.  On cancellation the task
removes the partial file and releases the limiter inside the loop (lines
488-494) and then the `finally` clause releases it again; on a read
exception the handler removes the file and reports a failure and the
`finally` clause performs the single release; on completion the task reports
completion and the `finally` clause performs the single release. -/
def download_stream_loop (hasEvent hasLimiter hasProgress : Bool)
    (cancelFrom readError : Option Nat) : List Nat → Nat → StreamOut
  | chunks, i =>
    if readError = some i then
      { terminal := Terminal.Failed
      , updates := if hasProgress then [⟨0, false, true, false⟩] else []
      , trace := [Action.removeFile] ++ (if hasLimiter then [Action.release] else [])
      , fileExistsAfter := false }
    else if hasEvent && cancelSeen cancelFrom (i + 1) then
      { terminal := Terminal.Cancelled
      , updates := []
      , trace := [Action.readChunk, Action.removeFile]
          ++ (if hasLimiter then [Action.release, Action.release] else [])
      , fileExistsAfter := false }
    else
      match chunks with
      | [] =>
        { terminal := Terminal.Completed
        , updates := if hasProgress then [⟨0, true, false, false⟩] else []
        , trace := [Action.readChunk] ++ (if hasLimiter then [Action.release] else [])
        , fileExistsAfter := true }
      | c :: rest =>
        let o := download_stream_loop hasEvent hasLimiter hasProgress cancelFrom readError
          rest (i + 1)
        { terminal := o.terminal
        , updates := (if hasProgress then [⟨c, false, false, false⟩] else []) ++ o.updates
        , trace := Action.readChunk :: Action.writeChunk :: o.trace
        , fileExistsAfter := o.fileExistsAfter }

/-- Source lines 417-520, after the verification step: the pre-request
cancellation check (line 417-420, release once, before the `try` block), the
request (lines 422-431), the interstitial handling (lines 433-470: a missing
download control or missing link target reports a failure, releases inside
the `try` block and returns, after which the `finally` clause releases a
second time), the status check of line 472 (same double release), and the
streaming loop. -/
def download_file_transfer (hasEvent hasLimiter hasProgress : Bool)
    (env : Env) : StreamOut :=
  if hasEvent && cancelSeen env.cancelFrom 0 then
    { terminal := Terminal.Cancelled
    , updates := []
    , trace := if hasLimiter then [Action.release] else []
    , fileExistsAfter := false }
  else if env.gzip && !env.hasDownloadButton then
    { terminal := Terminal.Failed
    , updates := if hasProgress then [⟨0, false, true, false⟩] else []
    , trace := [Action.request]
        ++ (if hasLimiter then [Action.release, Action.release] else [])
    , fileExistsAfter := false }
  else if env.gzip && env.href.isNone then
    { terminal := Terminal.Failed
    , updates := if hasProgress then [⟨0, false, true, false⟩] else []
    , trace := [Action.request]
        ++ (if hasLimiter then [Action.release, Action.release] else [])
    , fileExistsAfter := false }
  else
    let reqs : List Action :=
      if env.gzip then [Action.request, Action.request] else [Action.request]
    if 400 ≤ env.status ∧ env.status < 600 then
      { terminal := Terminal.Failed
      , updates := if hasProgress then [⟨0, false, true, false⟩] else []
      , trace := reqs ++ (if hasLimiter then [Action.release, Action.release] else [])
      , fileExistsAfter := false }
    else
      let o := download_stream_loop hasEvent hasLimiter hasProgress
        env.cancelFrom env.readError env.chunks 0
      { o with trace := reqs ++ o.trace }

/-- Source lines 394-520: `download_file`.  The limiter is acquired first
(lines 400-401), then the target name is normalized (line 404), then the
verification step runs (lines 407-415): a pre-existing file whose hash
matches is skipped (reporting its declared size as skipped bytes) and the
limiter is released; a mismatching pre-existing file is removed; then the
transfer proper runs. -/
def download_file (isalnum : Char → Bool) (file : FileMeta)
    (hasEvent hasLimiter hasProgress : Bool) (env : Env) : TaskResult :=
  let acq : List Action := if hasLimiter then [Action.acquire] else []
  let filename := normalize_file_or_folder_name isalnum file.filename
  if env.existsLocal then
    if env.localHash == file.hash then
      { terminal := Terminal.Skipped
      , updates := if hasProgress then [⟨file.size, false, false, true⟩] else []
      , trace := acq ++ [Action.checkExists, Action.hashFile]
          ++ (if hasLimiter then [Action.release] else [])
      , fileExistsAfter := true
      , targetName := filename }
    else
      let o := download_file_transfer hasEvent hasLimiter hasProgress env
      { terminal := o.terminal
      , updates := o.updates
      , trace := acq ++ [Action.checkExists, Action.hashFile, Action.removeFile] ++ o.trace
      , fileExistsAfter := o.fileExistsAfter
      , targetName := filename }
  else
    let o := download_file_transfer hasEvent hasLimiter hasProgress env
    { terminal := o.terminal
    , updates := o.updates
    , trace := acq ++ [Action.checkExists] ++ o.trace
    , fileExistsAfter := o.fileExistsAfter
    , targetName := filename }

/-! ### Progress tracking (mediafire.py lines 43-124) -/

/-- The counter state of `ProgressTracker` (source lines 44-55).  The
wall-clock fields (`start_time`, `file_speeds`, `last_update_time`,
`last_bytes`) only drive rate-limited display and are not modelled. -/
structure ProgressTracker where
  total_files : Nat
  total_size : Nat
  completed_files : Nat
  downloaded_bytes : Nat
  failed_files : Nat
  skipped_files : Nat
  deriving DecidableEq, Repr

/-- Source lines 44-50: the constructor zeroes every counter. -/
def ProgressTracker.init (total_files total_size : Nat) : ProgressTracker :=
  { total_files := total_files
  , total_size := total_size
  , completed_files := 0
  , downloaded_bytes := 0
  , failed_files := 0
  , skipped_files := 0 }

/-- Source lines 57-65: `update` adds the byte delta and increments the
counter of each set flag, under the tracker lock. -/
def ProgressTracker.update (p : ProgressTracker) (bytes_downloaded : Nat)
    (file_completed file_failed file_skipped : Bool) : ProgressTracker :=
  { p with
    downloaded_bytes := p.downloaded_bytes + bytes_downloaded
  , completed_files := p.completed_files + (if file_completed then 1 else 0)
  , failed_files := p.failed_files + (if file_failed then 1 else 0)
  , skipped_files := p.skipped_files + (if file_skipped then 1 else 0) }

/-- Apply a sequence of update calls in order.  Each call only adds to the
counters, so any interleaving of the per-call lock-protected additions from
concurrent tasks yields the same final counters as this linearization. -/
def applyUpdates (p : ProgressTracker) (us : List Update) : ProgressTracker :=
  us.foldl (fun q u => q.update u.bytes u.completed u.failed u.skipped) p

/-- Source line 119: the terminal summary prints
`Total: {self.completed_files} files`. -/
def ProgressTracker.finishTotalFiles (p : ProgressTracker) : Nat :=
  p.completed_files

/-! ### Counting helpers -/

def countCompleted (us : List Update) : Nat :=
  (us.filter (fun u => u.completed)).length

def countFailed (us : List Update) : Nat :=
  (us.filter (fun u => u.failed)).length

def countSkipped (us : List Update) : Nat :=
  (us.filter (fun u => u.skipped)).length

def totalBytes (us : List Update) : Nat :=
  (us.map (fun u => u.bytes)).sum

def countAcquire (tr : List Action) : Nat :=
  (tr.filter (fun a => a == Action.acquire)).length

def countRelease (tr : List Action) : Nat :=
  (tr.filter (fun a => a == Action.release)).length

def countCancelled (rs : List TaskResult) : Nat :=
  (rs.filter (fun r => r.terminal == Terminal.Cancelled)).length

/-- Whether the permit is held while the action at index `i` of the trace
executes: strictly more acquires than releases precede it. -/
def heldWhen (tr : List Action) (i : Nat) : Bool :=
  decide (countRelease (tr.take i) < countAcquire (tr.take i))

/-- Number of tasks of a batch that ended in the given terminal state. -/
def countTerminal (t : Terminal) (rs : List TaskResult) : Nat :=
  (rs.filter (fun r => r.terminal == t)).length

/-- Cancellation safety of a finished batch: a cancelled task has deleted
its file, and any file still present belongs to a completed task (full
body written) or a skipped one (pre-existing copy with matching hash) —
never to a task that was cut off while streaming. -/
def cancellationSafe (rs : List TaskResult) : Bool :=
  rs.all (fun r =>
    (!(r.terminal == Terminal.Cancelled) || !r.fileExistsAfter)
    && (!r.fileExistsAfter
        || (r.terminal == Terminal.Completed || r.terminal == Terminal.Skipped)))

/-! ### Bounded semaphore (threading.BoundedSemaphore, used at line 337) -/

/-- Outcome of running a trace against a `BoundedSemaphore`: the final free
count, a `ValueError` from releasing above the initial value, or a block on
acquire. -/
inductive SemOutcome where
  | ok (value : Nat)
  | valueError
  | blocked
  deriving DecidableEq, Repr

/-- `BoundedSemaphore(cap)` semantics over the semaphore actions of a trace:
`acquire` blocks when no permit is free; `release` raises `ValueError` when
the free count is already at the initial value. -/
def runSem (cap : Nat) : Nat → List Action → SemOutcome
  | v, [] => SemOutcome.ok v
  | v, Action.acquire :: rest =>
      if v = 0 then SemOutcome.blocked else runSem cap (v - 1) rest
  | v, Action.release :: rest =>
      if cap ≤ v then SemOutcome.valueError else runSem cap (v + 1) rest
  | v, _ :: rest => runSem cap v rest

/-! ### One batch (mediafire.py lines 309-364) -/

/-- Source lines 340-349: `download_folder` runs one `download_file` task per
listed file, each with the shared event, limiter and tracker. -/
def batchResults (isalnum : Char → Bool) (batch : List (FileMeta × Env)) :
    List TaskResult :=
  batch.map (fun fe => download_file isalnum fe.1 true true true fe.2)

/-- Source line 330: the declared total size of a batch. -/
def totalDeclaredSize (batch : List (FileMeta × Env)) : Nat :=
  (batch.map (fun fe => fe.1.size)).sum

/-- The final tracker state after the batch driver's wait (source lines
351-364) returns: every task has run to its terminal state and all its
update calls have been applied to the tracker initialized at line 334. -/
def download_folder_run (isalnum : Char → Bool) (batch : List (FileMeta × Env)) :
    ProgressTracker :=
  applyUpdates (ProgressTracker.init batch.length (totalDeclaredSize batch))
    ((batchResults isalnum batch).flatMap TaskResult.updates)

/-! ### Folder traversal (mediafire.py lines 273-306) -/

/-- A remote folder: display name, key, and child folders (the file listing
is handled by `download_folder_run`). -/
inductive RemoteFolder where
  | mk (name : String) (folderkey : String) (subfolders : List RemoteFolder)

def RemoteFolder.name : RemoteFolder → String
  | RemoteFolder.mk n _ _ => n

def RemoteFolder.subfolders : RemoteFolder → List RemoteFolder
  | RemoteFolder.mk _ _ s => s

/-- `os.path.join` for the non-empty relative components this program
composes. -/
def pathJoin (a b : String) : String := a ++ "/" ++ b

mutual

/-- Source lines 273-306: `get_folders` returns, in creation order, the local
directory names it creates (`makedirs`/`chdir` at lines 292-294).  On the
first call the directory is the output prefix joined with the normalized
remote name (lines 285-286); a recursive call (line 305) receives the raw
subfolder name `folder["name"]` as `folder_name` and, with `first` false,
creates exactly that name. -/
def get_folders (isalnum : Char → Bool) (folder_name : String) :
    RemoteFolder → Bool → List String
  | RemoteFolder.mk name _ subfolders, first =>
    (if first then pathJoin folder_name (normalize_file_or_folder_name isalnum name)
     else folder_name)
      :: get_folders_subfolders isalnum subfolders

/-- Source lines 302-306: the loop over `folder_content["folders"]`, calling
`get_folders(folder["folderkey"], folder["name"], threads_num)` for each
subfolder in listing order. -/
def get_folders_subfolders (isalnum : Char → Bool) : List RemoteFolder → List String
  | [] => []
  | sub :: rest =>
      get_folders isalnum sub.name sub false ++ get_folders_subfolders isalnum rest

end

mutual

/-- The raw (un-normalized) names of all proper descendants of a folder, in
the pre-order the traversal visits them. -/
def subNames : RemoteFolder → List String
  | RemoteFolder.mk _ _ subfolders => subNamesList subfolders

def subNamesList : List RemoteFolder → List String
  | [] => []
  | sub :: rest => sub.name :: (subNames sub ++ subNamesList rest)

end

/-! ### Concrete fixtures used by closed theorems -/

/-- A sample file: remote name with a space (kept by normalization),
declared size 100. -/
def sampleFile : FileMeta := ⟨"my file.bin", 100, "h0", "link"⟩

/-- Local copy present with matching hash. -/
def envSkip : Env := ⟨true, "h0", none, false, false, none, 200, [], none⟩

/-- Gzip interstitial whose document lacks the download-control anchor. -/
def envNoButton : Env := ⟨false, "", none, true, false, none, 200, [], none⟩

/-- Gzip interstitial whose anchor lacks a link target. -/
def envNoHref : Env := ⟨false, "", none, true, true, none, 200, [], none⟩

/-- Direct response with HTTP status 404. -/
def envStatus404 : Env := ⟨false, "", none, false, false, none, 404, [], none⟩

/-- Successful two-chunk stream. -/
def envOk : Env := ⟨false, "", none, false, false, none, 200, [10, 20], none⟩

/-- Cancellation observed at the pre-request check. -/
def envCancelStart : Env := ⟨false, "", some 0, false, false, none, 200, [10], none⟩

/-- Cancellation observed mid-stream, after one chunk was written. -/
def envCancelMid : Env := ⟨false, "", some 2, false, false, none, 200, [10, 20, 30], none⟩

/-- A folder tree: top-level folder with one subfolder whose raw name
contains a character outside the normalization allow-list. -/
def sampleTree : RemoteFolder :=
  RemoteFolder.mk "Top!" "key0" [RemoteFolder.mk "a!b" "key1" []]

/-! ### Counting lemmas -/

theorem countCompleted_append (a b : List Update) :
    countCompleted (a ++ b) = countCompleted a + countCompleted b := by
  simp [countCompleted, List.filter_append]

theorem countFailed_append (a b : List Update) :
    countFailed (a ++ b) = countFailed a + countFailed b := by
  simp [countFailed, List.filter_append]

theorem countSkipped_append (a b : List Update) :
    countSkipped (a ++ b) = countSkipped a + countSkipped b := by
  simp [countSkipped, List.filter_append]

theorem totalBytes_append (a b : List Update) :
    totalBytes (a ++ b) = totalBytes a + totalBytes b := by
  simp [totalBytes]

/-! ### Streaming-loop invariants -/

theorem download_stream_loop_spec (cf re : Option Nat) :
    ∀ (chunks : List Nat) (i : Nat),
      countCompleted (download_stream_loop true true true cf re chunks i).updates
        = (if (download_stream_loop true true true cf re chunks i).terminal
             = Terminal.Completed then 1 else 0)
      ∧ countFailed (download_stream_loop true true true cf re chunks i).updates
        = (if (download_stream_loop true true true cf re chunks i).terminal
             = Terminal.Failed then 1 else 0)
      ∧ countSkipped (download_stream_loop true true true cf re chunks i).updates = 0
      ∧ totalBytes (download_stream_loop true true true cf re chunks i).updates ≤ chunks.sum
      ∧ (download_stream_loop true true true cf re chunks i).fileExistsAfter
        = ((download_stream_loop true true true cf re chunks i).terminal
            == Terminal.Completed)
      ∧ (download_stream_loop true true true cf re chunks i).terminal ≠ Terminal.Skipped := by
  intro chunks
  induction chunks with
  | nil =>
      intro i
      unfold download_stream_loop
      split
      · simp [countCompleted, countFailed, countSkipped, totalBytes]
      · split
        · simp [countCompleted, countFailed, countSkipped, totalBytes]
        · simp [countCompleted, countFailed, countSkipped, totalBytes]
  | cons c rest ih =>
      intro i
      unfold download_stream_loop
      split
      · simp [countCompleted, countFailed, countSkipped, totalBytes]
      · split
        · simp [countCompleted, countFailed, countSkipped, totalBytes]
        · have h := ih (i + 1)
          simp only [List.sum_cons]
          refine ⟨?_, ?_, ?_, ?_, ?_, ?_⟩
          · simpa [countCompleted_append, countCompleted] using h.1
          · simpa [countFailed_append, countFailed] using h.2.1
          · simpa [countSkipped_append, countSkipped] using h.2.2.1
          · have hb := h.2.2.2.1
            simp [totalBytes_append, totalBytes] at hb ⊢
            omega
          · exact h.2.2.2.2.1
          · exact h.2.2.2.2.2

theorem download_file_transfer_spec (env : Env) :
    countCompleted (download_file_transfer true true true env).updates
      = (if (download_file_transfer true true true env).terminal
           = Terminal.Completed then 1 else 0)
    ∧ countFailed (download_file_transfer true true true env).updates
      = (if (download_file_transfer true true true env).terminal
           = Terminal.Failed then 1 else 0)
    ∧ countSkipped (download_file_transfer true true true env).updates = 0
    ∧ totalBytes (download_file_transfer true true true env).updates ≤ env.chunks.sum
    ∧ (download_file_transfer true true true env).fileExistsAfter
      = ((download_file_transfer true true true env).terminal == Terminal.Completed)
    ∧ (download_file_transfer true true true env).terminal ≠ Terminal.Skipped := by
  obtain ⟨ex, lh, cf, gz, btn, href, st, ch, re⟩ := env
  have h := download_stream_loop_spec cf re ch 0
  simp only [download_file_transfer]
  cases hcs : cancelSeen cf 0 <;> cases gz <;> cases btn <;> cases hh : href.isNone <;>
    by_cases hst : 400 ≤ st ∧ st < 600 <;>
    first
      | (simp [hcs, hh, hst, countCompleted, countFailed, countSkipped, totalBytes]; done)
      | (simpa [hcs, hh, hst] using h)

theorem download_file_task_spec (isalnum : Char → Bool) (f : FileMeta) (env : Env) :
    countCompleted (download_file isalnum f true true true env).updates
      = (if (download_file isalnum f true true true env).terminal
           = Terminal.Completed then 1 else 0)
    ∧ countFailed (download_file isalnum f true true true env).updates
      = (if (download_file isalnum f true true true env).terminal
           = Terminal.Failed then 1 else 0)
    ∧ countSkipped (download_file isalnum f true true true env).updates
      = (if (download_file isalnum f true true true env).terminal
           = Terminal.Skipped then 1 else 0)
    ∧ totalBytes (download_file isalnum f true true true env).updates
      ≤ max f.size env.chunks.sum
    ∧ (download_file isalnum f true true true env).fileExistsAfter
      = ((download_file isalnum f true true true env).terminal == Terminal.Completed
         || (download_file isalnum f true true true env).terminal == Terminal.Skipped) := by
  obtain ⟨t1, t2, t3, t4, t5, t6⟩ := download_file_transfer_spec env
  have hskipbeq : ((download_file_transfer true true true env).terminal
      == Terminal.Skipped) = false := by
    simpa using t6
  simp only [download_file]
  by_cases h1 : env.existsLocal = true
  · by_cases h2 : (env.localHash == f.hash) = true
    · simp [h1, h2, countCompleted, countFailed, countSkipped, totalBytes, Nat.le_max_left]
    · rw [if_pos h1, if_neg h2]
      refine ⟨by simpa using t1, by simpa using t2, ?_, ?_, ?_⟩
      · simpa [if_neg t6] using t3
      · simpa using le_trans t4 (Nat.le_max_right _ _)
      · simpa [hskipbeq] using t5
  · rw [if_neg h1]
    refine ⟨by simpa using t1, by simpa using t2, ?_, ?_, ?_⟩
    · simpa [if_neg t6] using t3
    · simpa using le_trans t4 (Nat.le_max_right _ _)
    · simpa [hskipbeq] using t5

theorem countCompleted_cons (u : Update) (t : List Update) :
    countCompleted (u :: t) = (if u.completed then 1 else 0) + countCompleted t := by
  cases hu : u.completed <;> simp [countCompleted, List.filter_cons, hu] <;> omega

theorem countFailed_cons (u : Update) (t : List Update) :
    countFailed (u :: t) = (if u.failed then 1 else 0) + countFailed t := by
  cases hu : u.failed <;> simp [countFailed, List.filter_cons, hu] <;> omega

theorem countSkipped_cons (u : Update) (t : List Update) :
    countSkipped (u :: t) = (if u.skipped then 1 else 0) + countSkipped t := by
  cases hu : u.skipped <;> simp [countSkipped, List.filter_cons, hu] <;> omega

theorem totalBytes_cons (u : Update) (t : List Update) :
    totalBytes (u :: t) = u.bytes + totalBytes t := by
  simp [totalBytes]

theorem applyUpdates_spec : ∀ (us : List Update) (p : ProgressTracker),
    (applyUpdates p us).completed_files = p.completed_files + countCompleted us
    ∧ (applyUpdates p us).failed_files = p.failed_files + countFailed us
    ∧ (applyUpdates p us).skipped_files = p.skipped_files + countSkipped us
    ∧ (applyUpdates p us).downloaded_bytes = p.downloaded_bytes + totalBytes us
    ∧ (applyUpdates p us).total_files = p.total_files
    ∧ (applyUpdates p us).total_size = p.total_size := by
  intro us
  induction us with
  | nil =>
      intro p
      simp [applyUpdates, countCompleted, countFailed, countSkipped, totalBytes]
  | cons u t ih =>
      intro p
      obtain ⟨h1, h2, h3, h4, h5, h6⟩ :=
        ih (ProgressTracker.update p u.bytes u.completed u.failed u.skipped)
      have happ : applyUpdates p (u :: t)
          = applyUpdates (ProgressTracker.update p u.bytes u.completed u.failed u.skipped) t :=
        rfl
      rw [happ]
      refine ⟨?_, ?_, ?_, ?_, ?_, ?_⟩
      · rw [h1, countCompleted_cons]
        cases hu : u.completed <;> simp [ProgressTracker.update, hu] <;> omega
      · rw [h2, countFailed_cons]
        cases hu : u.failed <;> simp [ProgressTracker.update, hu] <;> omega
      · rw [h3, countSkipped_cons]
        cases hu : u.skipped <;> simp [ProgressTracker.update, hu] <;> omega
      · rw [h4, totalBytes_cons]
        simp [ProgressTracker.update]
        omega
      · rw [h5]
        simp [ProgressTracker.update]
      · rw [h6]
        simp [ProgressTracker.update]

theorem countTerminal_partition : ∀ rs : List TaskResult,
    countTerminal Terminal.Completed rs + countTerminal Terminal.Failed rs
      + countTerminal Terminal.Skipped rs + countCancelled rs = rs.length := by
  intro rs
  induction rs with
  | nil => simp [countTerminal, countCancelled]
  | cons r t ih =>
      cases hterm : r.terminal <;>
        simp [countTerminal, countCancelled, List.filter_cons, hterm] at ih ⊢ <;>
        omega

theorem batch_counts (isalnum : Char → Bool) : ∀ (batch : List (FileMeta × Env)),
    countCompleted ((batchResults isalnum batch).flatMap TaskResult.updates)
      = countTerminal Terminal.Completed (batchResults isalnum batch)
    ∧ countFailed ((batchResults isalnum batch).flatMap TaskResult.updates)
      = countTerminal Terminal.Failed (batchResults isalnum batch)
    ∧ countSkipped ((batchResults isalnum batch).flatMap TaskResult.updates)
      = countTerminal Terminal.Skipped (batchResults isalnum batch) := by
  intro batch
  induction batch with
  | nil => simp [batchResults, countCompleted, countFailed, countSkipped, countTerminal]
  | cons fe t ih =>
      obtain ⟨i1, i2, i3⟩ := ih
      obtain ⟨s1, s2, s3, _, _⟩ := download_file_task_spec isalnum fe.1 fe.2
      have hb : batchResults isalnum (fe :: t)
          = download_file isalnum fe.1 true true true fe.2 :: batchResults isalnum t := rfl
      rw [hb]
      simp only [List.flatMap_cons]
      refine ⟨?_, ?_, ?_⟩
      · rw [countCompleted_append, i1, s1]
        cases hterm : (download_file isalnum fe.1 true true true fe.2).terminal <;>
          simp [countTerminal, List.filter_cons, hterm] <;> omega
      · rw [countFailed_append, i2, s2]
        cases hterm : (download_file isalnum fe.1 true true true fe.2).terminal <;>
          simp [countTerminal, List.filter_cons, hterm] <;> omega
      · rw [countSkipped_append, i3, s3]
        cases hterm : (download_file isalnum fe.1 true true true fe.2).terminal <;>
          simp [countTerminal, List.filter_cons, hterm] <;> omega

theorem batch_bytes (isalnum : Char → Bool) : ∀ (batch : List (FileMeta × Env)),
    batch.all (fun fe => decide (fe.2.chunks.sum ≤ fe.1.size)) = true →
    totalBytes ((batchResults isalnum batch).flatMap TaskResult.updates)
      ≤ totalDeclaredSize batch := by
  intro batch
  induction batch with
  | nil =>
      intro _
      simp [batchResults, totalBytes, totalDeclaredSize]
  | cons fe t ih =>
      intro hall
      simp only [List.all_cons, Bool.and_eq_true, decide_eq_true_eq] at hall
      obtain ⟨hhead, htail⟩ := hall
      have htail2 : t.all (fun fe => decide (fe.2.chunks.sum ≤ fe.1.size)) = true := by
        simpa using htail
      obtain ⟨_, _, _, s4, _⟩ := download_file_task_spec isalnum fe.1 fe.2
      have hb : batchResults isalnum (fe :: t)
          = download_file isalnum fe.1 true true true fe.2 :: batchResults isalnum t := rfl
      rw [hb]
      simp only [List.flatMap_cons, totalBytes_append]
      have hmax : max fe.1.size fe.2.chunks.sum = fe.1.size := Nat.max_eq_left hhead
      have hhead2 : totalBytes (download_file isalnum fe.1 true true true fe.2).updates
          ≤ fe.1.size := by
        rw [hmax] at s4
        exact s4
      have hdecl : totalDeclaredSize (fe :: t) = fe.1.size + totalDeclaredSize t := by
        simp [totalDeclaredSize]
      rw [hdecl]
      exact Nat.add_le_add hhead2 (ih htail2)

mutual

theorem get_folders_false_eq (isalnum : Char → Bool) :
    ∀ f : RemoteFolder, get_folders isalnum f.name f false = f.name :: subNames f
  | RemoteFolder.mk n k subs => by
      rw [show (RemoteFolder.mk n k subs).name = n from rfl]
      rw [show get_folders isalnum n (RemoteFolder.mk n k subs) false
            = n :: get_folders_subfolders isalnum subs from rfl]
      rw [show subNames (RemoteFolder.mk n k subs) = subNamesList subs from rfl]
      rw [get_folders_subfolders_eq isalnum subs]

theorem get_folders_subfolders_eq (isalnum : Char → Bool) :
    ∀ l : List RemoteFolder, get_folders_subfolders isalnum l = subNamesList l
  | [] => rfl
  | sub :: rest => by
      rw [show get_folders_subfolders isalnum (sub :: rest)
            = get_folders isalnum sub.name sub false ++ get_folders_subfolders isalnum rest
          from rfl]
      rw [get_folders_false_eq isalnum sub, get_folders_subfolders_eq isalnum rest]
      rw [show subNamesList (sub :: rest) = sub.name :: (subNames sub ++ subNamesList rest)
          from rfl]
      simp

end

theorem map_self_of_forall {α : Type} (f : α → α) :
    ∀ l : List α, (∀ x ∈ l, f x = x) → l.map f = l := by
  intro l
  induction l with
  | nil => intro _; rfl
  | cons a t ih =>
      intro h
      simp only [List.map_cons]
      rw [h a (by simp), ih (fun x hx => h x (by simp [hx]))]

theorem download_file_skip_eq (isalnum : Char → Bool) (file : FileMeta) (env : Env)
    (hex : env.existsLocal = true) (hhash : (env.localHash == file.hash) = true) :
    download_file isalnum file true true true env
      = { terminal := Terminal.Skipped
        , updates := [⟨file.size, false, false, true⟩]
        , trace := [Action.acquire, Action.checkExists, Action.hashFile, Action.release]
        , fileExistsAfter := true
        , targetName := normalize_file_or_folder_name isalnum file.filename } := by
  unfold download_file
  rw [if_pos hex, if_pos hhash]
  rfl

/-- c9: `normalize_file_or_folder_name` is deterministic (it is a pure
function of its input) and idempotent: normalizing twice equals normalizing
once, and a string is a fixed point of normalization exactly when it is
already in normalized form (every character alphanumeric or in the
allow-list), for every alphanumeric classifier the runtime may supply. -/
theorem c9_normalize_idempotent (isalnum : Char → Bool) (s : String) :
    normalize_file_or_folder_name isalnum (normalize_file_or_folder_name isalnum s)
      = normalize_file_or_folder_name isalnum s
    ∧ (isNormalizedForm isalnum s = true
        ↔ normalize_file_or_folder_name isalnum s = s) := by
  refine ⟨?_, ?_, ?_⟩
  · exact congrArg String.mk (normalize_idem_aux isalnum s.data)
  · intro hnf
    simp only [isNormalizedForm, List.all_eq_true] at hnf
    unfold normalize_file_or_folder_name
    rw [map_self_of_forall (normalizeChar isalnum) s.data
      (fun c hc => normalizeChar_of_keep isalnum c (hnf c hc))]
  · intro hid
    unfold normalize_file_or_folder_name at hid
    have hdata : s.data.map (normalizeChar isalnum) = s.data := congrArg String.data hid
    simp only [isNormalizedForm, List.all_eq_true]
    intro c hc
    by_contra hk
    have hkf : keepChar isalnum c = false := by
      cases hkc : keepChar isalnum c
      · rfl
      · exact absurd hkc hk
    exact normalizeChar_ne_of_not_keep isalnum c hkf
      (map_eq_self_forall (normalizeChar isalnum) s.data hdata c hc)

/-- c9 witness: the theorem applied to the classifier `Char.isAlphanum`
(which agrees with the Python classifier on this ASCII input) and the
string "a!b". -/
theorem c9_normalize_idempotent_witness :
    normalize_file_or_folder_name Char.isAlphanum
        (normalize_file_or_folder_name Char.isAlphanum "a!b")
      = normalize_file_or_folder_name Char.isAlphanum "a!b"
    ∧ (isNormalizedForm Char.isAlphanum "a!b" = true
        ↔ normalize_file_or_folder_name Char.isAlphanum "a!b" = "a!b") :=
  c9_normalize_idempotent Char.isAlphanum "a!b"

/-- c10: the downloaded-bytes counter never decreases: a single
`ProgressTracker.update` call adds exactly its byte argument (a `Nat`, so
never negative), hence is monotone, and the counter after any sequence of
update calls equals the initial value plus the sum of all recorded byte
deltas — so bytes recorded for chunks of a file later deleted on
cancellation or failure remain in the final total. -/
theorem c10_bytes_monotone :
    (∀ (p : ProgressTracker) (b : Nat) (c f s : Bool),
        (ProgressTracker.update p b c f s).downloaded_bytes = p.downloaded_bytes + b)
    ∧ (∀ (p : ProgressTracker) (b : Nat) (c f s : Bool),
        p.downloaded_bytes ≤ (ProgressTracker.update p b c f s).downloaded_bytes)
    ∧ (∀ (p : ProgressTracker) (us : List Update),
        (applyUpdates p us).downloaded_bytes = p.downloaded_bytes + totalBytes us) := by
  refine ⟨fun p b c f s => rfl, fun p b c f s => Nat.le_add_right _ _, fun p us =>
    (applyUpdates_spec us p).2.2.2.1⟩

/-- c8 (amended): the concurrency permit is acquired as the very first
action of every limited task, before the existence check and hash
computation of the Verifying step, which therefore run while the permit is
held — the slot is not deferred to the Resolving state. -/
theorem c8_acquire_before_verify (isalnum : Char → Bool) (file : FileMeta) (env : Env) :
    (download_file isalnum file true true true env).trace.take 2
      = [Action.acquire, Action.checkExists]
    ∧ heldWhen (download_file isalnum file true true true env).trace 1 = true := by
  have htake : (download_file isalnum file true true true env).trace.take 2
      = [Action.acquire, Action.checkExists] := by
    unfold download_file
    split_ifs <;> simp_all
  refine ⟨htake, ?_⟩
  have h1 : (download_file isalnum file true true true env).trace.take 1
      = [Action.acquire] := by
    have h2 := congrArg (List.take 1) htake
    rw [List.take_take] at h2
    simpa using h2
  simp [heldWhen, h1, countAcquire, countRelease]

/-- c8 counterexample: on a skip-path run the full trace is acquire,
existence check, hash computation, release — the permit is held (heldWhen)
during both actions of the Verifying step, refuting the claim that
Verifying executes without holding a permit and that a slot is acquired
only before Resolving. -/
theorem c8_counterexample :
    (download_file Char.isAlphanum sampleFile true true true envSkip).trace
      = [Action.acquire, Action.checkExists, Action.hashFile, Action.release]
    ∧ heldWhen (download_file Char.isAlphanum sampleFile true true true envSkip).trace 1
      = true
    ∧ heldWhen (download_file Char.isAlphanum sampleFile true true true envSkip).trace 2
      = true :=
  ⟨rfl, rfl, rfl⟩

/-- c4: cancellation safety: in every finished batch (the driver returns
only once each of the `batch.length` dispatched tasks has produced its
terminal result), a task that ended `Cancelled` has deleted its partial
file, and any file still present belongs to a `Completed` task (entire body
written) or a `Skipped` one (pre-existing verified copy) — no
partially-written file remains. -/
theorem c4_cancellation_safety (isalnum : Char → Bool) (batch : List (FileMeta × Env)) :
    (batchResults isalnum batch).length = batch.length
    ∧ cancellationSafe (batchResults isalnum batch) = true := by
  constructor
  · simp [batchResults]
  · simp only [cancellationSafe, List.all_eq_true]
    intro r hr
    simp only [batchResults, List.mem_map] at hr
    obtain ⟨fe, _, hfe⟩ := hr
    obtain ⟨_, _, _, _, h5⟩ := download_file_task_spec isalnum fe.1 fe.2
    rw [← hfe, h5]
    generalize (download_file isalnum fe.1 true true true fe.2).terminal = tt
    cases tt <;> rfl

/-- c6 (amended): only the very first directory of a traversal and the
per-file target names are normalized: `get_folders` creates the top-level
directory under the normalized remote folder name, but every recursively
visited subfolder directory is created under the raw remote subfolder name
(the recursive call of source line 305 passes `folder["name"]` unmodified
and the non-first path never normalizes), while `download_file` always
normalizes the file name it writes to. -/
theorem c6_normalization_amended (isalnum : Char → Bool) (folder_name : String)
    (f : RemoteFolder) (file : FileMeta) (env : Env) :
    get_folders isalnum folder_name f true
      = pathJoin folder_name (normalize_file_or_folder_name isalnum f.name)
        :: subNames f
    ∧ (download_file isalnum file true true true env).targetName
      = normalize_file_or_folder_name isalnum file.filename := by
  constructor
  · cases f with
    | mk n k subs =>
        rw [show get_folders isalnum folder_name (RemoteFolder.mk n k subs) true
              = pathJoin folder_name (normalize_file_or_folder_name isalnum n)
                :: get_folders_subfolders isalnum subs from rfl]
        rw [get_folders_subfolders_eq isalnum subs]
        rfl
  · unfold download_file
    split_ifs <;> rfl

/-- c6 counterexample: a subfolder whose raw name "a!b" contains a
character outside the allow-list: the traversal creates the local
directory "a!b" verbatim, whereas the normalized form is "a-b" — so the
directory created for a visited subfolder does not bear the normalized
name, refuting the claim. -/
theorem c6_counterexample :
    get_folders Char.isAlphanum "out" sampleTree true = ["out/Top-", "a!b"]
    ∧ normalize_file_or_folder_name Char.isAlphanum "a!b" = "a-b"
    ∧ ("a!b" : String) ≠ "a-b" :=
  ⟨rfl, rfl, by decide⟩

/-- c3 (amended): a pre-existing local file with matching hash ends the
task in `Skipped`; the skip increments the `skipped_files` counter and the
downloaded-bytes counter by the declared size, leaves `completed_files`
unchanged (it is not counted as a download), and is therefore NOT included
in the terminal summary's `Total: N files` figure, which prints
`completed_files` only (skips are reported on a separate `Skipped` line). -/
theorem c3_skip_amended (isalnum : Char → Bool) (file : FileMeta) (env : Env)
    (p : ProgressTracker) (hex : env.existsLocal = true)
    (hhash : env.localHash = file.hash) :
    (download_file isalnum file true true true env).terminal = Terminal.Skipped
    ∧ (download_file isalnum file true true true env).updates
      = [⟨file.size, false, false, true⟩]
    ∧ (applyUpdates p (download_file isalnum file true true true env).updates).completed_files
      = p.completed_files
    ∧ (applyUpdates p (download_file isalnum file true true true env).updates).skipped_files
      = p.skipped_files + 1
    ∧ (applyUpdates p (download_file isalnum file true true true env).updates).downloaded_bytes
      = p.downloaded_bytes + file.size
    ∧ ProgressTracker.finishTotalFiles
        (applyUpdates p (download_file isalnum file true true true env).updates)
      = ProgressTracker.finishTotalFiles p := by
  have hr := download_file_skip_eq isalnum file env hex (by simp [hhash])
  rw [hr]
  refine ⟨rfl, rfl, ?_, ?_, ?_, ?_⟩ <;>
    simp [applyUpdates, ProgressTracker.update, ProgressTracker.finishTotalFiles]

/-- c3 witness: the theorem applied to the sample file with a matching
pre-existing local copy, starting from a fresh tracker. -/
theorem c3_skip_amended_witness :
    (download_file Char.isAlphanum sampleFile true true true envSkip).terminal
      = Terminal.Skipped
    ∧ (download_file Char.isAlphanum sampleFile true true true envSkip).updates
      = [⟨sampleFile.size, false, false, true⟩]
    ∧ (applyUpdates (ProgressTracker.init 1 100)
        (download_file Char.isAlphanum sampleFile true true true envSkip).updates).completed_files
      = (ProgressTracker.init 1 100).completed_files
    ∧ (applyUpdates (ProgressTracker.init 1 100)
        (download_file Char.isAlphanum sampleFile true true true envSkip).updates).skipped_files
      = (ProgressTracker.init 1 100).skipped_files + 1
    ∧ (applyUpdates (ProgressTracker.init 1 100)
        (download_file Char.isAlphanum sampleFile true true true envSkip).updates).downloaded_bytes
      = (ProgressTracker.init 1 100).downloaded_bytes + sampleFile.size
    ∧ ProgressTracker.finishTotalFiles
        (applyUpdates (ProgressTracker.init 1 100)
          (download_file Char.isAlphanum sampleFile true true true envSkip).updates)
      = ProgressTracker.finishTotalFiles (ProgressTracker.init 1 100) :=
  c3_skip_amended Char.isAlphanum sampleFile envSkip (ProgressTracker.init 1 100) rfl rfl

/-- c3 counterexample: a batch consisting of one file skipped by hash
match: the completed-files counter stays 0 and the terminal summary's
`Total` figure is 0, not 1 — the skip is counted in `skipped_files` only,
refuting the claim that it is counted toward the completed-file total. -/
theorem c3_counterexample :
    (download_folder_run Char.isAlphanum [(sampleFile, envSkip)]).completed_files = 0
    ∧ (download_folder_run Char.isAlphanum [(sampleFile, envSkip)]).skipped_files = 1
    ∧ ProgressTracker.finishTotalFiles
        (download_folder_run Char.isAlphanum [(sampleFile, envSkip)]) = 0 :=
  ⟨rfl, rfl, rfl⟩

theorem batch_all_skip_spec (isalnum : Char → Bool) : ∀ batch : List (FileMeta × Env),
    batch.all (fun fe => fe.2.existsLocal && (fe.2.localHash == fe.1.hash)) = true →
    ((batchResults isalnum batch).all (fun r => r.terminal == Terminal.Skipped) = true)
    ∧ ((batchResults isalnum batch).all
        (fun r => !(r.trace.contains Action.request)) = true)
    ∧ countSkipped ((batchResults isalnum batch).flatMap TaskResult.updates) = batch.length
    ∧ countCompleted ((batchResults isalnum batch).flatMap TaskResult.updates) = 0
    ∧ countFailed ((batchResults isalnum batch).flatMap TaskResult.updates) = 0
    ∧ totalBytes ((batchResults isalnum batch).flatMap TaskResult.updates)
        = totalDeclaredSize batch := by
  intro batch
  induction batch with
  | nil =>
      intro _
      simp [batchResults, countSkipped, countCompleted, countFailed, totalBytes,
        totalDeclaredSize]
  | cons fe t ih =>
      intro hall
      simp only [List.all_cons, Bool.and_eq_true] at hall
      obtain ⟨⟨hex, hhash⟩, htail⟩ := hall
      obtain ⟨i1, i2, i3, i4, i5, i6⟩ := ih (by simpa using htail)
      have hsk := download_file_skip_eq isalnum fe.1 fe.2 hex hhash
      have hb : batchResults isalnum (fe :: t)
          = download_file isalnum fe.1 true true true fe.2 :: batchResults isalnum t := rfl
      rw [hb, hsk]
      refine ⟨?_, ?_, ?_, ?_, ?_, ?_⟩
      · simpa using i1
      · simpa using i2
      · simp only [List.flatMap_cons, countSkipped_append, i3]
        simp [countSkipped]
        omega
      · simp only [List.flatMap_cons, countCompleted_append, i4]
        simp [countCompleted]
      · simp only [List.flatMap_cons, countFailed_append, i5]
        simp [countFailed]
      · simp only [List.flatMap_cons, totalBytes_append, i6]
        simp [totalBytes, totalDeclaredSize]

/-- c5 (amended): for a batch in which every file already exists locally
with a matching hash, every task ends `Skipped` and issues no HTTP request
(zero network transfer); however the downloaded-bytes counter is advanced
by each skipped file's full declared size (source line 410 reports
`file_size` for a skip), so the run counts the total declared size as
downloaded bytes, not zero. -/
theorem c5_idempotence_amended (isalnum : Char → Bool)
    (batch : List (FileMeta × Env))
    (hall : batch.all (fun fe => fe.2.existsLocal && (fe.2.localHash == fe.1.hash)) = true) :
    ((batchResults isalnum batch).all (fun r => r.terminal == Terminal.Skipped) = true)
    ∧ ((batchResults isalnum batch).all
        (fun r => !(r.trace.contains Action.request)) = true)
    ∧ (download_folder_run isalnum batch).skipped_files = batch.length
    ∧ (download_folder_run isalnum batch).completed_files = 0
    ∧ (download_folder_run isalnum batch).failed_files = 0
    ∧ (download_folder_run isalnum batch).downloaded_bytes = totalDeclaredSize batch := by
  obtain ⟨s1, s2, s3, s4, s5, s6⟩ := batch_all_skip_spec isalnum batch hall
  obtain ⟨a1, a2, a3, a4, _, _⟩ :=
    applyUpdates_spec ((batchResults isalnum batch).flatMap TaskResult.updates)
      (ProgressTracker.init batch.length (totalDeclaredSize batch))
  refine ⟨s1, s2, ?_, ?_, ?_, ?_⟩
  · unfold download_folder_run
    rw [a3, s3]
    simp [ProgressTracker.init]
  · unfold download_folder_run
    rw [a1, s4]
    simp [ProgressTracker.init]
  · unfold download_folder_run
    rw [a2, s5]
    simp [ProgressTracker.init]
  · unfold download_folder_run
    rw [a4, s6]
    simp [ProgressTracker.init]

/-- c5 witness: the theorem applied to a one-file batch whose file is
already present with matching hash. -/
theorem c5_idempotence_amended_witness :
    (download_folder_run Char.isAlphanum [(sampleFile, envSkip)]).skipped_files = 1
    ∧ (download_folder_run Char.isAlphanum [(sampleFile, envSkip)]).completed_files = 0
    ∧ (download_folder_run Char.isAlphanum [(sampleFile, envSkip)]).downloaded_bytes
      = totalDeclaredSize [(sampleFile, envSkip)] :=
  ⟨(c5_idempotence_amended Char.isAlphanum [(sampleFile, envSkip)] (by decide)).2.2.1,
   (c5_idempotence_amended Char.isAlphanum [(sampleFile, envSkip)] (by decide)).2.2.2.1,
   (c5_idempotence_amended Char.isAlphanum [(sampleFile, envSkip)] (by decide)).2.2.2.2.2⟩

/-- c5 counterexample: one skipped file of declared size 100: the run
counts 100 downloaded bytes, not zero — refuting the claim that zero bytes
are counted as transferred for each skipped file. -/
theorem c5_counterexample :
    (download_folder_run Char.isAlphanum [(sampleFile, envSkip)]).downloaded_bytes = 100
    ∧ (download_folder_run Char.isAlphanum [(sampleFile, envSkip)]).downloaded_bytes ≠ 0 :=
  ⟨rfl, by decide⟩

/-- c2 (amended): for every finished batch,
`completed_files + failed_files + skipped_files + cancelled tasks =
total files` — the three counters alone sum to the file count exactly when
no task was cancelled, because a cancelled task (pre-request or mid-stream)
returns without updating any counter; and the downloaded-bytes counter
never exceeds the declared total when no file's body exceeds its declared
size. -/
theorem c2_counters_amended (isalnum : Char → Bool) (batch : List (FileMeta × Env)) :
    ((download_folder_run isalnum batch).completed_files
      + (download_folder_run isalnum batch).failed_files
      + (download_folder_run isalnum batch).skipped_files
      + countCancelled (batchResults isalnum batch) = batch.length)
    ∧ (batch.all (fun fe => decide (fe.2.chunks.sum ≤ fe.1.size)) = true →
        (download_folder_run isalnum batch).downloaded_bytes
          ≤ (download_folder_run isalnum batch).total_size) := by
  obtain ⟨a1, a2, a3, a4, a5, a6⟩ :=
    applyUpdates_spec ((batchResults isalnum batch).flatMap TaskResult.updates)
      (ProgressTracker.init batch.length (totalDeclaredSize batch))
  obtain ⟨b1, b2, b3⟩ := batch_counts isalnum batch
  have hlen : (batchResults isalnum batch).length = batch.length := by
    simp [batchResults]
  have hpart := countTerminal_partition (batchResults isalnum batch)
  constructor
  · unfold download_folder_run
    rw [a1, a2, a3, b1, b2, b3]
    simp only [ProgressTracker.init]
    omega
  · intro hall
    unfold download_folder_run
    rw [a4, a6]
    simp only [ProgressTracker.init]
    have := batch_bytes isalnum batch hall
    omega

/-- c2 witness: the theorem applied to a one-file batch that downloads 30
bytes of a declared 100. -/
theorem c2_counters_amended_witness :
    ((download_folder_run Char.isAlphanum [(sampleFile, envOk)]).completed_files
      + (download_folder_run Char.isAlphanum [(sampleFile, envOk)]).failed_files
      + (download_folder_run Char.isAlphanum [(sampleFile, envOk)]).skipped_files
      + countCancelled (batchResults Char.isAlphanum [(sampleFile, envOk)]) = 1)
    ∧ (download_folder_run Char.isAlphanum [(sampleFile, envOk)]).downloaded_bytes
        ≤ (download_folder_run Char.isAlphanum [(sampleFile, envOk)]).total_size :=
  ⟨(c2_counters_amended Char.isAlphanum [(sampleFile, envOk)]).1,
   (c2_counters_amended Char.isAlphanum [(sampleFile, envOk)]).2 (by decide)⟩

/-- c2 counterexample: a one-file batch cancelled before the request: the
task ends `Cancelled` without touching any counter, so
`completed + failed + skipped = 0` while the batch has 1 file — refuting
the claimed equality for runs in which the cancellation token was set
mid-batch. -/
theorem c2_counterexample :
    (download_folder_run Char.isAlphanum [(sampleFile, envCancelStart)]).completed_files
      + (download_folder_run Char.isAlphanum [(sampleFile, envCancelStart)]).failed_files
      + (download_folder_run Char.isAlphanum [(sampleFile, envCancelStart)]).skipped_files
      = 0
    ∧ [(sampleFile, envCancelStart)].length = 1
    ∧ (batchResults Char.isAlphanum [(sampleFile, envCancelStart)]).length = 1 :=
  ⟨rfl, rfl, rfl⟩

/-- c1: the permit is NOT released exactly once on every path: on the
missing-download-control path and on the mid-stream-cancellation path the
task releases once inside the `try` block (source lines 448-449 and
492-493) and a second time in the `finally` clause (lines 518-520) — two
releases for one acquire, and running either trace against a fresh
`BoundedSemaphore` of the default capacity 20 raises `ValueError` on the
second release. -/
theorem c1_permit_double_release :
    countAcquire (download_file Char.isAlphanum sampleFile true true true envNoButton).trace
      = 1
    ∧ countRelease (download_file Char.isAlphanum sampleFile true true true envNoButton).trace
      = 2
    ∧ runSem 20 20 (download_file Char.isAlphanum sampleFile true true true envNoButton).trace
      = SemOutcome.valueError
    ∧ countRelease (download_file Char.isAlphanum sampleFile true true true envCancelMid).trace
      = 2
    ∧ runSem 20 20 (download_file Char.isAlphanum sampleFile true true true envCancelMid).trace
      = SemOutcome.valueError
    ∧ countRelease (download_file Char.isAlphanum sampleFile true true true envOk).trace = 1
    ∧ runSem 20 20 (download_file Char.isAlphanum sampleFile true true true envOk).trace
      = SemOutcome.ok 20 :=
  ⟨rfl, rfl, rfl, rfl, rfl, rfl, rfl⟩

/-- c7: a resolution failure is recorded as a failed file and the task
returns rather than raising out of the failure branch itself — but because
of the double release (branch plus `finally`), the `finally` clause's
second `BoundedSemaphore.release` raises `ValueError`, which does
propagate out of `download_file`: shown on the missing-link-target path
and on the HTTP 404 path. -/
theorem c7_resolver_failure_raises :
    (download_file Char.isAlphanum sampleFile true true true envNoHref).terminal
      = Terminal.Failed
    ∧ countFailed (download_file Char.isAlphanum sampleFile true true true envNoHref).updates
      = 1
    ∧ runSem 20 20 (download_file Char.isAlphanum sampleFile true true true envNoHref).trace
      = SemOutcome.valueError
    ∧ (download_file Char.isAlphanum sampleFile true true true envStatus404).terminal
      = Terminal.Failed
    ∧ countFailed (download_file Char.isAlphanum sampleFile true true true envStatus404).updates
      = 1
    ∧ runSem 20 20 (download_file Char.isAlphanum sampleFile true true true envStatus404).trace
      = SemOutcome.valueError :=
  ⟨rfl, rfl, rfl, rfl, rfl, rfl⟩

end Mediafire
